import Mathlib

/-!
A shallow embedding of the per-value animation core of react-spring
(`packages/core/src/SpringValue.ts`).  Machine numbers are modelled by `ℚ`;
the runtime exponential (`Math.exp`) and the easing curve are passed around
as explicit functions.  Part one embeds the numeric integrator
(`SpringValue.advance`) for one numeric channel with a plain (non-fluid)
goal; part two embeds the update-merge state machine (`_merge`, `_update`,
`stop`, `_stop`, `_set`, `_focus`, `_start`) for plain scalar values.
-/

namespace SpringV

/-! ## Part one: the integrator (`advance`) -/

/-- JavaScript `a || b` for an optional numeric config field: `undefined`
and `0` are both falsy, so both fall through to the default. -/
def jsOr (a : Option ℚ) (b : ℚ) : ℚ :=
  match a with
  | some x => if x = 0 then b else x
  | none => b

/-- The `decay` config field of `AnimationConfig`: `undefined`, a boolean,
or a number. -/
inductive Decay where
  | undef
  | bool (b : Bool)
  | num (q : ℚ)
  deriving DecidableEq, Repr

/-- JavaScript truthiness of the `decay` field (`undefined`, `false` and
`0` are falsy), as tested by `else if (config.decay)`. -/
def Decay.truthy : Decay → Bool
  | .undef => false
  | .bool b => b
  | .num q => decide (q ≠ 0)

/-- `config.decay === true ? 0.998 : config.decay` (only reached when the
field is truthy). -/
def Decay.rate : Decay → ℚ
  | .num q => q
  | _ => 998 / 1000

/-- The motion configuration (`AnimationConfig`), restricted to the fields
that `advance` and `_merge` read.  The easing curve is an explicit function.
The `round` field only affects the displayed value inside the external
`Animated` node (`node.setValue`), so it is not tracked here. -/
structure SpringConfig where
  mass : ℚ := 1
  tension : ℚ := 170
  friction : ℚ := 26
  velocity : ℚ := 0
  clamp : Bool := false
  bounce : Option ℚ := none
  duration : Option ℚ := none
  easing : ℚ → ℚ := id
  decay : Decay := .undef
  precision : Option ℚ := none
  restVelocity : Option ℚ := none
  progress : Option ℚ := none

/-- The per-channel physical state of one `AnimatedValue` node: position,
velocity, seed velocity, elapsed time and the done flag. -/
structure PhysNode where
  lastPosition : ℚ := 0
  lastVelocity : Option ℚ := none
  v0 : Option ℚ := none
  done : Bool := false
  elapsedTime : ℚ := 0
  deriving DecidableEq, Repr

/-- The slice of the `Animation` record that `advance` reads for one numeric
channel whose goal is a plain (non-fluid) number. -/
structure AdvAnim where
  config : SpringConfig
  toValue : ℚ
  fromValue : ℚ
  immediate : Bool := false

/-- The spring-easing sub-step loop of `SpringValue.advance`: semi-implicit
Euler at a fixed 1 ms step.  Each iteration first performs the rest check
(`isMoving` / `finished`, breaking out early), then the opt-in
bounce/clamp handling (`bounce` is `some 0` when `config.clamp` is set),
then the force computation.  The fuel is `ceil(dt / 1)`; exiting by fuel
exhaustion leaves `finished = false`. -/
def springSubsteps (tension friction mass goalQ prec restVelocity : ℚ)
    (bounce : Option ℚ) (isGrowing : Bool) :
    Nat → ℚ → ℚ → ℚ × ℚ × Bool
  | 0, pos, vel => (pos, vel, false)
  | k + 1, pos, vel =>
    if ¬ restVelocity < |vel| ∧ |goalQ - pos| ≤ prec then (pos, vel, true)
    else
      let pv : ℚ × ℚ :=
        match bounce with
        | some bf =>
            if pos = goalQ ∨ (decide (goalQ < pos) = isGrowing) then (goalQ, -vel * bf)
            else (pos, vel)
        | none => (pos, vel)
      let springForce := -tension * (1 / 1000000) * (pv.1 - goalQ)
      let dampingForce := -friction * (1 / 1000) * pv.2
      let acceleration := (springForce + dampingForce) / mass
      let vel2 := pv.2 + acceleration * 1
      let pos2 := pv.1 + vel2 * 1
      springSubsteps tension friction mass goalQ prec restVelocity bounce
        isGrowing k pos2 vel2

/-- One call of `SpringValue.advance` restricted to a single numeric channel
(`anim.values.forEach` body, lines 161-298 of `SpringValue.ts`): the
immediate snap, the loose-spring guard (`config.tension <= 0`), and the
duration / decay / spring mode dispatch.  `expFn` stands for the runtime
`Math.exp`.  The NaN guard of the source cannot fire over `ℚ`, and the
parent-payload coupling is absent for a plain goal. -/
def advanceNode (expFn : ℚ → ℚ) (a : AdvAnim) (dt : ℚ) (n : PhysNode) :
    PhysNode :=
  if n.done then n
  else
    let goalQ := a.toValue
    if a.immediate then
      { n with lastPosition := goalQ, done := true }
    else if a.config.tension ≤ 0 then
      { n with done := true }
    else
      let elapsed := n.elapsedTime + dt
      let fromV := a.fromValue
      let v0 := n.v0.getD a.config.velocity
      let res : ℚ × ℚ × Bool :=
        match a.config.duration with
        | some d =>
          let p0 := jsOr a.config.progress 0
          let p := if d ≤ 0 then 1 else p0 + (1 - p0) * min 1 (elapsed / d)
          let pos := fromV + a.config.easing p * (goalQ - fromV)
          (pos, (pos - n.lastPosition) / dt, decide (p = 1))
        | none =>
          if (a.config.decay).truthy then
            let decay := (a.config.decay).rate
            let e := expFn (-(1 - decay) * elapsed)
            let pos := fromV + (v0 / (1 - decay)) * (1 - e)
            (pos, v0 * e, decide (|n.lastPosition - pos| < 1 / 10))
          else
            let velocity := n.lastVelocity.getD v0
            let prec := jsOr a.config.precision
              (if fromV = goalQ then 1 / 200 else min 1 (|goalQ - fromV| * (1 / 1000)))
            let restVelocity := jsOr a.config.restVelocity (prec / 10)
            let bounceFactor := if a.config.clamp then some 0 else a.config.bounce
            let isGrowing := if fromV = goalQ then decide (0 < v0) else decide (fromV < goalQ)
            springSubsteps a.config.tension a.config.friction a.config.mass goalQ
              prec restVelocity bounceFactor isGrowing
              (Int.toNat ⌈dt⌉) n.lastPosition velocity
      { lastPosition := res.1, lastVelocity := some res.2.1, v0 := some v0,
        done := res.2.2, elapsedTime := elapsed }

/-- Iterated `advance` calls with the given list of time deltas. -/
def advanceMany (expFn : ℚ → ℚ) (a : AdvAnim) (dts : List ℚ) (n : PhysNode) :
    PhysNode :=
  dts.foldl (fun m d => advanceNode expFn a d m) n

/-- Definition following the words of the specification: the sub-step loop
as the spec states it, without the bounce/clamp handling, resting (and
exiting early) exactly when the velocity is at most `restVelocity` and the
distance to the goal is at most `precision`. -/
def specSpringSubsteps (tension friction mass goalQ prec restVelocity : ℚ) :
    Nat → ℚ → ℚ → ℚ × ℚ × Bool
  | 0, pos, vel => (pos, vel, false)
  | k + 1, pos, vel =>
    if |vel| ≤ restVelocity ∧ |goalQ - pos| ≤ prec then (pos, vel, true)
    else
      let springForce := -tension * (1 / 1000000) * (pos - goalQ)
      let dampingForce := -friction * (1 / 1000) * vel
      let acceleration := (springForce + dampingForce) / mass
      let vel2 := vel + acceleration
      let pos2 := pos + vel2
      specSpringSubsteps tension friction mass goalQ prec restVelocity k
        pos2 vel2

/-- Definition following the words of the specification (for comparison with
`advanceNode`): the integrator as the spec describes it, with the duration /
decay / spring formulas but without the loose-spring guard
(`tension <= 0`) and without the bounce/clamp handling. -/
def specAdvanceNode (expFn : ℚ → ℚ) (a : AdvAnim) (dt : ℚ) (n : PhysNode) :
    PhysNode :=
  if n.done then n
  else
    let goalQ := a.toValue
    if a.immediate then
      { n with lastPosition := goalQ, done := true }
    else
      let elapsed := n.elapsedTime + dt
      let fromV := a.fromValue
      let v0 := n.v0.getD a.config.velocity
      let res : ℚ × ℚ × Bool :=
        match a.config.duration with
        | some d =>
          let p0 := jsOr a.config.progress 0
          let p := if d ≤ 0 then 1 else p0 + (1 - p0) * min 1 (elapsed / d)
          let pos := fromV + a.config.easing p * (goalQ - fromV)
          (pos, (pos - n.lastPosition) / dt, decide (p = 1))
        | none =>
          if (a.config.decay).truthy then
            let decay := (a.config.decay).rate
            let e := expFn (-(1 - decay) * elapsed)
            let pos := fromV + (v0 / (1 - decay)) * (1 - e)
            (pos, v0 * e, decide (|n.lastPosition - pos| < 1 / 10))
          else
            let velocity := n.lastVelocity.getD v0
            let prec := jsOr a.config.precision
              (if fromV = goalQ then 1 / 200 else min 1 (|goalQ - fromV| * (1 / 1000)))
            let restVelocity := jsOr a.config.restVelocity (prec / 10)
            specSpringSubsteps a.config.tension a.config.friction a.config.mass
              goalQ prec restVelocity (Int.toNat ⌈dt⌉) n.lastPosition velocity
      { lastPosition := res.1, lastVelocity := some res.2.1, v0 := some v0,
        done := res.2.2, elapsedTime := elapsed }

/-! ## Part two: the update-merge state machine

The merge model covers plain (non-fluid) scalar values: the `to` / `from`
props are concrete numbers or animatable strings, never other fluid values
and never an async `to` sequence, so `getFluidConfig` is `none`,
`isAsyncTo` is `false` and `toConfig` / `fromConfig` vanish.  Channel-level
detail (payload done flags, `node.reset`) belongs to part one; here the
`Animated` node is abstracted to its current value.  Event-prop handlers
are identified by numeric tags, and everything a merge call observably does
(calling handlers, emitting the idle event, delivering results to `onRest`
entries) is returned as an event list. -/

/-- A plain animatable value of the modelled fragment: a number or an
(animatable) string.  Arrays behave like several numeric channels and are
not needed by the claims. -/
inductive SpringVal where
  | num (q : ℚ)
  | str (s : String)
  deriving DecidableEq, Repr

/-- The constructor of the `Animated` node for a value (`getAnimatedType`
of the external animated package, modelled from the spec): numbers get
`AnimatedValue`, animatable strings get `AnimatedString`. -/
inductive NodeType where
  | valueT
  | stringT
  deriving DecidableEq, Repr

def getAnimatedType : SpringVal → NodeType
  | .num _ => .valueT
  | .str _ => .stringT

/-- Modelled from the spec: `helpers.computeGoal` dereferences fluid values
and interpolates animatable strings at progress 1, which on the plain
values of the modelled fragment is the identity. -/
def computeGoal (v : SpringVal) : SpringVal := v

/-- Modelled from the spec: every value of the modelled fragment is
animatable (`is.num(goal) || is.arr(goal) || isAnimatedString(goal)`). -/
def isAnimatable (v : SpringVal) : Bool :=
  match v with
  | .num _ => true
  | .str _ => true

/-- Identity of a deferred outcome: either a user `onRest` handler (by tag)
or the `resolve` continuation of the update with the given `callId`. -/
inductive RestTarget where
  | userR (id : Nat)
  | resolveR (callId : Nat)
  deriving DecidableEq, Repr

/-- An entry of the `anim.onRest` queue: the literal `noop`, or a
`checkFinishedOnRest` wrapper capturing `anim.to` at wrap time. -/
inductive RestEntry where
  | noopE
  | entry (capturedTo : Option SpringVal) (target : RestTarget)
  deriving DecidableEq, Repr

/-- An `AnimationResult` delivered to a handler or to a resolver. -/
inductive ResultK where
  | finishedR (finished : Bool)
  | cancelledR
  | noopR (value : Option SpringVal)
  deriving DecidableEq, Repr

/-- Everything a merge observably does besides mutating the state. -/
inductive SEvent where
  | onPropsE
  | onDelayEndE
  | onChangeE (v : SpringVal)
  | idleE
  | restE (target : RestTarget) (r : ResultK)
  deriving DecidableEq, Repr

/-- A config prop with optional fields: defined fields overwrite the
current config.  Modelled from the spec (`AnimationConfig.mergeConfig` is
outside the source file); the easing curve is not patchable here so that
patches keep decidable equality, standing in for the reference comparison
`props.config !== defaultProps.config` of the source. -/
structure ConfigPatch where
  mass : Option ℚ := none
  tension : Option ℚ := none
  friction : Option ℚ := none
  velocity : Option ℚ := none
  clamp : Option Bool := none
  bounce : Option ℚ := none
  duration : Option ℚ := none
  decay : Option Decay := none
  precision : Option ℚ := none
  restVelocity : Option ℚ := none
  progress : Option ℚ := none
  deriving DecidableEq, Repr

def applyPatch (c : SpringConfig) : Option ConfigPatch → SpringConfig
  | none => c
  | some p =>
    { c with
      mass := p.mass.getD c.mass
      tension := p.tension.getD c.tension
      friction := p.friction.getD c.friction
      velocity := p.velocity.getD c.velocity
      clamp := p.clamp.getD c.clamp
      bounce := p.bounce <|> c.bounce
      duration := p.duration <|> c.duration
      decay := p.decay.getD c.decay
      precision := p.precision <|> c.precision
      restVelocity := p.restVelocity <|> c.restVelocity
      progress := p.progress <|> c.progress }

/-- Modelled from the spec: `mergeConfig(config, newConfig, defaultConfig)`
applies the default patch, then the new patch, over the current config. -/
def mergeConfig (c : SpringConfig) (newP defP : Option ConfigPatch) :
    SpringConfig :=
  applyPatch (applyPatch c defP) newP

/-- The stored customizable defaults (`SpringValue._defaultProps`). -/
structure DefaultProps where
  immediate : Option Bool := none
  config : Option ConfigPatch := none
  onStart : Option Nat := none
  onChange : Option Nat := none
  onPause : Option Nat := none
  onResume : Option Nat := none
  onRest : Option Nat := none
  onProps : Option Nat := none
  onDelayEnd : Option Nat := none
  deriving DecidableEq, Repr

/-- The slice of the `Animation` record that `_merge` reads and writes,
with channel-level payload detail abstracted away (see part one). -/
structure Animation where
  toV : Option SpringVal := none
  fromV : Option SpringVal := none
  config : SpringConfig := {}
  immediate : Bool := false
  changed : Bool := false
  onRest : List RestEntry := []
  toValues : Option (List ℚ) := none
  fromValues : List ℚ := []
  onStartP : Option Nat := none
  onChangeP : Option Nat := none
  onPauseP : Option Nat := none
  onResumeP : Option Nat := none

/-- The state of one `SpringValue`: its animation record, its `Animated`
node (abstracted to the current value), the `SpringPhase` bits (modelled
from the spec: `isAnimating` / `isPaused` / `hasAnimated` are stored
flags), the async-to flag of `RunAsyncState`, the two call counters, the
stored defaults, and the `Object.isFrozen` flag. -/
structure SpringState where
  anim : Animation := {}
  node : Option SpringVal := none
  active : Bool := false
  pausedB : Bool := false
  hasAnimatedB : Bool := false
  asyncToB : Bool := false
  lastCallId : Nat := 0
  lastToId : Nat := 0
  defaults : DefaultProps := {}
  frozen : Bool := false

/-- The props of one update as they reach `_update` / `_merge`, with the
`callId` already assigned by `scheduleProps`. -/
structure MergeProps where
  callId : Nat := 0
  cancel : Bool := false
  defaultP : Bool := false
  reverse : Bool := false
  reset : Option Bool := none
  toP : Option SpringVal := none
  fromP : Option SpringVal := none
  config : Option ConfigPatch := none
  immediateP : Option Bool := none
  onStart : Option Nat := none
  onChange : Option Nat := none
  onPause : Option Nat := none
  onResume : Option Nat := none
  onRest : Option Nat := none
  onProps : Option Nat := none
  onDelayEnd : Option Nat := none
  deriving DecidableEq, Repr

/-- `resolveEventProp`: the prop of the update wins, else the default. -/
def resolveEv (propV defV : Option Nat) : Option Nat := propV <|> defV

/-- JavaScript `defaultProps.immediate || props.immediate` followed by
`matchProp`: a falsy default falls through to the prop of the update. -/
def jsOrOptBool (a b : Option Bool) : Bool :=
  match a with
  | some true => true
  | _ =>
    match b with
    | some true => true
    | _ => false

/-- Modelled from the spec: `helpers.mergeDefaultProps` copies the defined
customizable props of a `default: true` update into the stored defaults. -/
def mergeDefaultProps (d : DefaultProps) (p : MergeProps) : DefaultProps :=
  { immediate := p.immediateP <|> d.immediate
    config := p.config <|> d.config
    onStart := p.onStart <|> d.onStart
    onChange := p.onChange <|> d.onChange
    onPause := p.onPause <|> d.onPause
    onResume := p.onResume <|> d.onResume
    onRest := p.onRest <|> d.onRest
    onProps := p.onProps <|> d.onProps
    onDelayEnd := p.onDelayEnd <|> d.onDelayEnd }

/-- `checkFinishedOnRest`: wrap a handler, capturing `anim.to` now.  An
undefined handler wraps to `noop`. -/
def mkRestEntry (target : Option RestTarget) (s : SpringState) : RestEntry :=
  match target with
  | none => .noopE
  | some t => .entry s.anim.toV t

/-- Fire one `onRest` queue entry (the closure produced by
`checkFinishedOnRest`): on cancel it delivers the cancelled result,
otherwise it compares the value at fire time with the goal captured at
wrap time. -/
def fireRest (e : RestEntry) (cancel : Bool) (cur : Option SpringVal) :
    Option SEvent :=
  match e with
  | .noopE => none
  | .entry capturedTo t =>
    some (.restE t (if cancel then .cancelledR
      else .finishedR (decide (Option.map computeGoal cur =
        Option.map computeGoal capturedTo))))

/-- JavaScript `anim.onRest[0] = e` (index assignment extends an empty
array). -/
def setHead (l : List RestEntry) (e : RestEntry) : List RestEntry :=
  match l with
  | [] => [e]
  | _ :: t => e :: t

/-- `SpringValue._focus`: retarget `anim.to` (child re-attachment is a
no-op without observers). -/
def focus (s : SpringState) (v : Option SpringVal) : SpringState :=
  if v ≠ s.anim.toV then { s with anim := { s.anim with toV := v } } else s

/-- `SpringValue._set`: update the node value from outside the frameloop.
An undefined argument is ignored; creating the initial node emits no
change event; otherwise a changed (or forced) value fires `_onChange`
with `idle = true`. -/
def setV (s : SpringState) (arg : Option SpringVal) (force : Bool) :
    SpringState × List SEvent :=
  match arg with
  | none => (s, [])
  | some value =>
    match s.node with
    | none => ({ s with node := some value }, [])
    | some old =>
      if force ∨ ¬ value = old then
        ({ s with node := some value }, [.onChangeE value])
      else (s, [])

/-- `SpringValue._stop`: exit the frameloop, emit the idle event, replace
the `onRest` queue (preserving its head only when the goal is dynamic,
i.e. `toValues` is null), suppress the head handler for no-op animations,
and fire every old entry with the given cancel flag. -/
def privStop (s : SpringState) (cancel : Bool) : SpringState × List SEvent :=
  if s.active then
    let s1 := { s with active := false }
    let q := s1.anim.onRest
    if q.isEmpty then (s1, [.idleE])
    else
      let preserved : RestEntry :=
        if s1.anim.toValues.isSome then .noopE else q.headD .noopE
      let q2 := if ¬ s1.anim.changed then setHead q .noopE else q
      let s2 := { s1 with anim := { s1.anim with onRest := [preserved] } }
      (s2, .idleE :: q2.filterMap (fun e => fireRest e cancel s2.node))
  else (s, [])

/-- `SpringValue.stop`: cancel the async state (`stopAsync`, modelled from
the spec: it clears the pending timers and the active async-to sequence),
re-focus the goal to the current value, and run `_stop`. -/
def stopPub (s : SpringState) (cancel : Bool) : SpringState × List SEvent :=
  let s1 := { s with asyncToB := false }
  let s2 := focus s1 s1.node
  privStop s2 cancel

/-- The payload positions of the node, as `_start` reads them for
`fromValues` (an `AnimatedString` channel runs from 0 to 1). -/
def nodePositions : Option SpringVal → List ℚ
  | some (.num q) => [q]
  | some (.str _) => [0]
  | none => []

/-- `SpringValue._start`: re-seed `fromValues` from the current payload
positions when not immediate, and (re)enter the active phase, arming
`onStart` by clearing `anim.changed`.  Entering the active phase also
sets the has-animated bit (`setActiveBit`, modelled from the spec). -/
def startAnim (s : SpringState) : SpringState :=
  let s1 :=
    if ¬ s.anim.immediate then
      { s with anim := { s.anim with fromValues := nodePositions s.node } }
    else s
  if ¬ s1.active then
    { s1 with
        active := true
        hasAnimatedB := true
        anim := { s1.anim with changed := false } }
  else s1

/-- Lines 693 to 703 of `SpringValue.ts`: when the merge computed
finished-without-starting while an animation is active, either force a
restart (visibly changed and not resetting) or stop before the first
frame (otherwise, when no start was decided). -/
def mergeRestTransition (s : SpringState) (finished started reset : Bool) :
    SpringState × Bool × List SEvent :=
  if finished ∧ s.active then
    if s.anim.changed ∧ ¬ reset then (s, true, [])
    else if ¬ started then
      let r := privStop s false
      (r.1, started, r.2)
    else (s, started, [])
  else (s, started, [])

/-- The resolution part of a merge outcome: an immediately resolved result,
or a resolution deferred to the `onRest` queue. -/
inductive MergeRes where
  | resolved (r : ResultK)
  | pending
  deriving DecidableEq, Repr

/-- The outcome of a merge: either a synchronously raised `Error` (carrying
the state as mutated so far), or a new state with a resolution. -/
inductive MergeOut where
  | threw (s : SpringState) (events : List SEvent) (msg : String)
  | ok (s : SpringState) (events : List SEvent) (res : MergeRes)

def MergeOut.stateOf : MergeOut → SpringState
  | .threw s _ _ => s
  | .ok s _ _ => s

def MergeOut.eventsOf : MergeOut → List SEvent
  | .threw _ e _ => e
  | .ok _ e _ => e

def MergeOut.resOf : MergeOut → Option MergeRes
  | .threw _ _ _ => none
  | .ok _ _ r => some r

def MergeOut.errOf : MergeOut → Option String
  | .threw _ _ m => some m
  | .ok _ _ _ => none

/-- The `anim.toValues` written when a start is decided: `[1]` for an
`AnimatedString` node, else the goal as an array. -/
def toValuesOf (goalType : NodeType) (goal : SpringVal) : List ℚ :=
  if goalType = NodeType.stringT then [1]
  else
    match goal with
    | .num q => [q]
    | .str _ => []

def mismatchMsg : String :=
  "Cannot animate between different Animated node types, as the to prop suggests"

/-- `SpringValue._merge` after the cancel and callId-precedence checks
(lines 554 to 794 of `SpringValue.ts`), for the plain-value fragment:
`onDelayEnd`, default-prop merging, the range computation with the
from-implies-to and reverse rules, `_focus`, config merging, the
reset/value/goal/immediate computation, the node-type check, the
start/finish decision, the `onRest` queue reconciliation, and the final
dispatch. -/
def mergeAfterPrecedence (s0 : SpringState) (p : MergeProps) : MergeOut :=
  let ev0 : List SEvent :=
    if (resolveEv p.onDelayEnd s0.defaults.onDelayEnd).isSome then [.onDelayEndE]
    else []
  let s1 :=
    if p.defaultP then { s0 with defaults := mergeDefaultProps s0.defaults p }
    else s0
  let prevTo := s1.anim.toV
  let prevFrom := s1.anim.fromV
  let hasToProp := p.toP.isSome
  let hasFromProp := p.fromP.isSome
  let t0 := if hasToProp then p.toP else prevTo
  let f0 := if hasFromProp then p.fromP else prevFrom
  let t1 := if hasFromProp && !hasToProp && (!p.defaultP || t0.isNone) then f0 else t0
  let t2 := if p.reverse then f0 else t1
  let f1 := if p.reverse then t1 else f0
  let hasFromChanged : Bool := !(decide (f1 = prevFrom))
  let s2 :=
    if hasFromChanged then { s1 with anim := { s1.anim with fromV := f1 } }
    else s1
  let hasToChanged : Bool := !(decide (t2 = prevTo))
  let s3 := if hasToChanged then focus s2 t2 else s2
  let prevDecay := s3.anim.config.decay
  let prevVelocity := s3.anim.config.velocity
  let s4 :=
    match p.config with
    | some pc =>
      let defP := if some pc = s3.defaults.config then none else s3.defaults.config
      let cfg := mergeConfig s3.anim.config (some pc) defP
      { s3 with anim := { s3.anim with config := cfg } }
    | none => s3
  match s4.node, t2 with
  | none, _ => .ok s4 ev0 (.resolved (.finishedR true))
  | some _, none => .ok s4 ev0 (.resolved (.finishedR true))
  | some nodeV, some tv =>
    let reset : Bool :=
      match p.reset with
      | none => hasFromProp && !p.defaultP
      | some r => f1.isSome && r
    let value : Option SpringVal := if reset then f1 else some nodeV
    let goal := computeGoal tv
    let animatable := isAnimatable goal
    let immediate : Bool :=
      !animatable || jsOrOptBool s4.defaults.immediate p.immediateP
    if hasToChanged && !(decide (getAnimatedType tv = getAnimatedType nodeV))
        && !immediate then
      .threw s4 ev0 mismatchMsg
    else
      let rep :=
        if hasToChanged && !(decide (getAnimatedType tv = getAnimatedType nodeV))
        then setV s4 (some goal) false
        else (s4, [])
      let s5 := rep.1
      let ev1 := rep.2
      let nodeV2 := s5.node.getD nodeV
      let goalType := getAnimatedType nodeV2
      let hasValueChanged : Bool := reset || (!s5.hasAnimatedB && hasFromChanged)
      let finished : Bool :=
        if hasToChanged || hasValueChanged then
          decide (Option.map computeGoal value = some goal)
        else false
      let startedB : Bool :=
        if hasToChanged || hasValueChanged then !finished else false
      let startedC : Bool :=
        if !(decide (s5.anim.config.decay = prevDecay))
            || !(decide (s5.anim.config.velocity = prevVelocity)) then true
        else startedB
      let rt := mergeRestTransition s5 finished startedC reset
      let s6 := rt.1
      let startedD := rt.2.1
      let ev2 := rt.2.2
      let s7 :=
        if startedD then
          let tvs := some (toValuesOf goalType goal)
          { s6 with anim := { s6.anim with toValues := tvs } }
        else s6
      let r8 : SpringState × List SEvent :=
        if s7.anim.immediate = immediate then (s7, [])
        else
          let s' := { s7 with anim := { s7.anim with immediate := immediate } }
          if !immediate && !reset then setV s' prevTo false else (s', [])
      let s8 := r8.1
      let ev3 := r8.2
      let s9 :=
        if startedD then
          { s8 with anim := { s8.anim with
              onStartP := resolveEv p.onStart s8.defaults.onStart
              onChangeP := resolveEv p.onChange s8.defaults.onChange
              onPauseP := resolveEv p.onPause s8.defaults.onPause
              onResumeP := resolveEv p.onResume s8.defaults.onResume } }
        else s8
      let onRestQueue := s9.anim.onRest
      let onRestE : RestEntry :=
        if reset && p.onRest.isNone then onRestQueue.headD .noopE
        else mkRestEntry (Option.map RestTarget.userR
          (resolveEv p.onRest s9.defaults.onRest)) s9
      let r10 : SpringState × List SEvent :=
        if startedD then
          let s' := { s9 with anim := { s9.anim with
              onRest := [onRestE, mkRestEntry (some (.resolveR p.callId)) s9] } }
          let idx := if reset then 0 else 1
          (s', (onRestQueue.drop idx).filterMap (fun e => fireRest e false s'.node))
        else if reset || p.onRest.isSome then
          ({ s9 with anim := { s9.anim with
              onRest := setHead s9.anim.onRest onRestE } }, [])
        else (s9, [])
      let s10 := r10.1
      let ev4 := r10.2
      let r11 := if reset then setV s10 value false else (s10, [])
      let s11 := r11.1
      let ev5 := r11.2
      if startedD then
        let s12 := if reset then { s11 with active := false } else s11
        let s13 := startAnim s12
        .ok s13 (ev0 ++ ev1 ++ ev2 ++ ev3 ++ ev4 ++ ev5) .pending
      else if s11.active && !hasToChanged then
        .ok { s11 with anim := { s11.anim with
            onRest := s11.anim.onRest ++ [mkRestEntry (some (.resolveR p.callId)) s11] } }
          (ev0 ++ ev1 ++ ev2 ++ ev3 ++ ev4 ++ ev5) .pending
      else
        .ok s11 (ev0 ++ ev1 ++ ev2 ++ ev3 ++ ev4 ++ ev5)
          (.resolved (.noopR value))

/-- `SpringValue._merge` (lines 523 to 794): the cancel prop stops the
animation and resolves as cancelled; an update defining `to` or `from`
must carry a `callId` above `_lastToId` or it resolves as cancelled with
no other effect; otherwise the merge proper runs. -/
def mergeFn (s : SpringState) (p : MergeProps) : MergeOut :=
  if p.cancel then
    let r := stopPub s true
    .ok r.1 r.2 (.resolved .cancelledR)
  else if p.toP.isSome || p.fromP.isSome then
    if s.lastToId < p.callId then
      mergeAfterPrecedence { s with lastToId := p.callId } p
    else .ok s [] (.resolved .cancelledR)
  else mergeAfterPrecedence s p

/-- `SpringValue._prepareNode`: before ever animating, keep the node value
in sync with the `from` prop (after the reverse swap), or create it from
the `to` prop. -/
def prepareNode (s : SpringState) (p : MergeProps) : SpringState × List SEvent :=
  if ¬ s.hasAnimatedB then
    if (if p.reverse then p.toP else p.fromP).isSome then
      setV s (if p.reverse then p.toP else p.fromP) false
    else if s.node = none then
      setV s (if p.reverse then p.fromP else p.toP) false
    else (s, [])
  else (s, [])

def frozenMsg : String :=
  "Cannot animate a SpringValue object that is frozen. Did you forget to pass your component to animated(...) before animating its props?"

def prependEv (evs : List SEvent) : MergeOut → MergeOut
  | .threw s e m => .threw s (evs ++ e) m
  | .ok s e r => .ok s (evs ++ e) r

/-- `SpringValue._update` for a direct (no-delay, unpaused, non-loop)
update: the `onProps` inspection hook, `_prepareNode`, the frozen check,
and the handoff to `_merge` through `scheduleProps` (modelled from the
spec: with no delay and no pause gate the props reach the merge directly,
carrying the freshly assigned `callId`). -/
def updateFn (s : SpringState) (p : MergeProps) : MergeOut :=
  let ev0 : List SEvent :=
    if (resolveEv p.onProps s.defaults.onProps).isSome then [.onPropsE] else []
  let r1 := prepareNode s p
  let s1 := r1.1
  let ev1 := r1.2
  if s1.frozen then .threw s1 (ev0 ++ ev1) frozenMsg
  else
    let s2 := { s1 with lastCallId := s1.lastCallId + 1 }
    prependEv (ev0 ++ ev1) (mergeFn s2 { p with callId := s2.lastCallId })

/-- The `idle` accessor:
`!(isAnimating(this) || this._state.asyncTo) || isPaused(this)`. -/
def idleAcc (s : SpringState) : Bool :=
  !(s.active || s.asyncToB) || s.pausedB

end SpringV

namespace SpringV

/-! ## Helper lemmas -/

/-- Without bounce/clamp, the source sub-step loop agrees with the loop the
spec describes. -/
theorem springSubsteps_no_bounce (t f m g pr rv : ℚ) (gr : Bool) :
    ∀ k pos vel, springSubsteps t f m g pr rv none gr k pos vel =
      specSpringSubsteps t f m g pr rv k pos vel := by
  intro k
  induction k with
  | zero => intro pos vel; rfl
  | succ k ih =>
    intro pos vel
    rw [springSubsteps, specSpringSubsteps]
    simp only [not_lt, mul_one]
    split
    · rfl
    · exact ih _ _

/-- The loose-spring guard leaves the position untouched on every call. -/
theorem advanceNode_loose (expFn : ℚ → ℚ) (a : AdvAnim) (dt : ℚ) (n : PhysNode)
    (himm : a.immediate = false) (ht : a.config.tension ≤ 0) :
    (advanceNode expFn a dt n).lastPosition = n.lastPosition := by
  unfold advanceNode
  simp only [himm, Bool.false_eq_true, if_false, if_pos ht]
  split <;> rfl

theorem applyPatch_none (c : SpringConfig) : applyPatch c none = c := rfl

theorem isAnimatable_true (v : SpringVal) : isAnimatable v = true := by
  cases v <;> rfl

/-- `_focus` touches nothing but `anim.to`. -/
theorem focus_fields (s : SpringState) (v : Option SpringVal) :
    (focus s v).node = s.node ∧ (focus s v).active = s.active ∧
    (focus s v).anim.onRest = s.anim.onRest ∧
    (focus s v).anim.changed = s.anim.changed ∧
    (focus s v).anim.toValues = s.anim.toValues := by
  unfold focus
  split <;> exact ⟨rfl, rfl, rfl, rfl, rfl⟩

/-- Focusing the current value makes `anim.to` the current value. -/
theorem focus_self_toV (s : SpringState) :
    (focus s s.node).anim.toV = s.node := by
  unfold focus
  split
  · rfl
  · next h => exact (not_ne_iff.mp h).symm

/-- `_stop` with the cancel flag: the node value and the goal survive,
every event it emits is the idle event or a cancelled-result delivery,
every wrapped handler beyond the queue head (in particular every
outstanding resolver, which the source stores at index 1 and up) is
delivered the cancelled result, and when the animation had visibly
changed the head handler is delivered it as well. -/
theorem privStop_cancel_shape (s : SpringState) (hs : s.active = true) :
    (privStop s true).1.node = s.node ∧
    (privStop s true).1.anim.toV = s.anim.toV ∧
    (∀ e ∈ (privStop s true).2, e = .idleE ∨ ∃ t, e = .restE t .cancelledR) ∧
    (∀ cto t, RestEntry.entry cto t ∈ s.anim.onRest.tail →
      SEvent.restE t ResultK.cancelledR ∈ (privStop s true).2) ∧
    (s.anim.changed = true → ∀ cto t, RestEntry.entry cto t ∈ s.anim.onRest →
      SEvent.restE t ResultK.cancelledR ∈ (privStop s true).2) := by
  unfold privStop
  rw [if_pos hs]
  by_cases hq : s.anim.onRest.isEmpty
  · rw [if_pos hq]
    have hqe : s.anim.onRest = [] := List.isEmpty_iff.mp hq
    refine ⟨rfl, rfl, fun e he => ?_, fun cto t hmem => ?_, fun _ cto t hmem => ?_⟩
    · simp only [List.mem_singleton] at he
      exact Or.inl he
    · rw [hqe] at hmem
      simp at hmem
    · rw [hqe] at hmem
      simp at hmem
  · rw [if_neg hq]
    refine ⟨rfl, rfl, fun e he => ?_, fun cto t hmem => ?_, fun hch cto t hmem => ?_⟩
    · simp only [List.mem_cons] at he
      rcases he with he | he
      · exact Or.inl he
      · rw [List.mem_filterMap] at he
        obtain ⟨a, _, ha⟩ := he
        cases a with
        | noopE => simp [fireRest] at ha
        | entry cto t =>
          simp only [fireRest, if_pos rfl, Option.some.injEq] at ha
          exact Or.inr ⟨t, ha.symm⟩
    · simp only [List.mem_cons, List.mem_filterMap]
      refine Or.inr ⟨.entry cto t, ?_, by simp [fireRest]⟩
      by_cases hch2 : s.anim.changed
      · rw [if_neg (by simp [hch2])]
        exact List.mem_of_mem_tail hmem
      · rw [if_pos (by simp [hch2])]
        cases hL : s.anim.onRest with
        | nil =>
          rw [hL] at hq
          simp at hq
        | cons hd tl =>
          simp only [setHead]
          rw [hL, List.tail_cons] at hmem
          exact List.mem_cons_of_mem _ hmem
    · simp only [List.mem_cons, List.mem_filterMap]
      refine Or.inr ⟨.entry cto t, ?_, by simp [fireRest]⟩
      rw [if_neg (by simp [hch])]
      exact hmem

theorem setV_frozen (s : SpringState) (a : Option SpringVal) (f : Bool) :
    (setV s a f).1.frozen = s.frozen := by
  unfold setV
  repeat' split
  all_goals rfl

theorem prepareNode_frozen (s : SpringState) (p : MergeProps) :
    (prepareNode s p).1.frozen = s.frozen := by
  unfold prepareNode
  repeat' split
  all_goals first | apply setV_frozen | rfl

/-- Merging a non-immediate update whose `to` prop switches the node type
raises the type-mismatch error, with the already-focused range and the
already-merged config (for any `config` prop the update carries) left in
the state. -/
theorem merge_mismatch_shape (s : SpringState) (p : MergeProps) (q x : ℚ)
    (st : String) (hc : p.cancel = false) (hto : p.toP = some (.str st))
    (hfrom : p.fromP = none) (hdef : p.defaultP = false)
    (hrev : p.reverse = false) (himm : p.immediateP = none)
    (hdefs : s.defaults = {}) (htv : s.anim.toV = some (.num q))
    (hnode : s.node = some (.num x)) (hlt : s.lastToId < p.callId) :
    (mergeFn s p).errOf = some mismatchMsg ∧
    (mergeFn s p).stateOf.anim.toV = some (.str st) ∧
    (mergeFn s p).stateOf.anim.config = applyPatch s.anim.config p.config := by
  obtain ⟨anim, node, active, pausedB, hasAnimatedB, asyncToB, lastCallId,
    lastToId, defaults, frozen⟩ := s
  obtain ⟨toV, fromV, config, immB, changed, onRest, toValues, fromValues,
    oS, oC, oP, oR⟩ := anim
  simp only at hdefs hnode htv hlt
  subst hdefs hnode htv
  unfold mergeFn
  rw [if_neg (by simp [hc]), if_pos (by simp [hto]), if_pos hlt]
  cases hpc : p.config with
  | none =>
    simp [mergeAfterPrecedence, hto, hfrom, hdef, hrev, hpc, himm,
      resolveEv, jsOrOptBool, computeGoal, isAnimatable_true, focus,
      getAnimatedType, MergeOut.errOf, MergeOut.stateOf, applyPatch_none]
  | some pc =>
    simp [mergeAfterPrecedence, hto, hfrom, hdef, hrev, hpc, himm,
      resolveEv, jsOrOptBool, computeGoal, isAnimatable_true, focus,
      getAnimatedType, MergeOut.errOf, MergeOut.stateOf, mergeConfig,
      applyPatch_none]

/-! ## Claim theorems -/

/-- C2 (amended): in spring mode (no duration, no decay, not immediate,
not done) with `tension > 0`, no `clamp` and no `bounce`, every
`advance(dt)` with `dt > 0` behaves exactly as the spec describes it:
`ceil(dt/1)` semi-implicit Euler sub-steps of 1 ms computing
`springForce = -tension * 1e-6 * (position - to)`,
`dampingForce = -friction * 1e-3 * velocity`,
`acceleration = (springForce + dampingForce) / mass`,
`velocity += acceleration`, `position += velocity`, exiting early and
finishing exactly when the velocity is at most `restVelocity` and the
distance to the goal is at most `precision`, with `precision` defaulting
to 0.005 when `from == to` and `min(1, abs(to - from) * 0.001)` otherwise
and `restVelocity` defaulting to `precision / 10` (`jsOr` in both
definitions). -/
theorem advance_spring_matches_spec (expFn : ℚ → ℚ) (a : AdvAnim) (dt : ℚ)
    (n : PhysNode) (_hdt : 0 < dt) (hdone : n.done = false)
    (himm : a.immediate = false) (hdur : a.config.duration = none)
    (hdec : (a.config.decay).truthy = false) (ht : 0 < a.config.tension)
    (hcl : a.config.clamp = false) (hb : a.config.bounce = none) :
    advanceNode expFn a dt n = specAdvanceNode expFn a dt n := by
  unfold advanceNode specAdvanceNode
  simp only [hdone, himm, hdur, hdec, hcl, hb, Bool.false_eq_true, if_false,
    if_neg (not_le.mpr ht)]
  rw [springSubsteps_no_bounce]

/-- Witness for C2: a default spring config advanced by 1 ms matches the
spec formulas. -/
theorem advance_spring_matches_spec_witness :
    advanceNode (fun _ => 0) ⟨{}, 1, 0, false⟩ 1 {} =
      specAdvanceNode (fun _ => 0) ⟨{}, 1, 0, false⟩ 1 {} :=
  advance_spring_matches_spec _ _ _ _ (by norm_num) rfl rfl rfl rfl
    (by norm_num) rfl rfl

/-- Counterexample for C2 as frozen: with `tension = 0` the loop never runs
(the loose-spring guard fires first), and with `clamp` set the sub-step
deflects the velocity and clamps the position, so in both cases `advance`
differs from the claimed sub-step formulas. -/
theorem advance_spring_spec_counter :
    advanceNode (fun _ => 0) ⟨{ tension := 0, velocity := 1 }, 10, 0, false⟩ 1 {} ≠
      specAdvanceNode (fun _ => 0) ⟨{ tension := 0, velocity := 1 }, 10, 0, false⟩ 1 {} ∧
    advanceNode (fun _ => 0) ⟨{ clamp := true }, 10, 0, false⟩ 1
        { lastPosition := 11, lastVelocity := some 1 } ≠
      specAdvanceNode (fun _ => 0) ⟨{ clamp := true }, 10, 0, false⟩ 1
        { lastPosition := 11, lastVelocity := some 1 } := by
  constructor
  · intro h
    have := congrArg PhysNode.done h
    norm_num [advanceNode, specAdvanceNode, springSubsteps, specSpringSubsteps,
      jsOr, Decay.truthy, min_def] at this
  · intro h
    have := congrArg PhysNode.lastPosition h
    norm_num [advanceNode, specAdvanceNode, springSubsteps, specSpringSubsteps,
      jsOr, Decay.truthy, min_def] at this

/-- C6 (amended): in duration mode with `tension > 0`, `advance(dt)` on a
non-done non-immediate channel computes exactly the spec formulas
(`p = progress + (1 - progress) * min(1, elapsed / duration)` forced to 1
when `duration <= 0`, `position = from + easing(p) * (to - from)`,
`velocity = (position - lastPosition) / dt`, finished exactly when
`p == 1`), and `duration <= 0` finishes on the very first call. -/
theorem advance_duration_matches_spec (expFn : ℚ → ℚ) (a : AdvAnim) (dt : ℚ)
    (n : PhysNode) (d : ℚ) (hdone : n.done = false) (himm : a.immediate = false)
    (hdur : a.config.duration = some d) (ht : 0 < a.config.tension) :
    advanceNode expFn a dt n = specAdvanceNode expFn a dt n ∧
    (d ≤ 0 → (advanceNode expFn a dt n).done = true) := by
  unfold advanceNode specAdvanceNode
  simp only [hdone, himm, hdur, Bool.false_eq_true, if_false,
    if_neg (not_le.mpr ht)]
  refine ⟨by trivial, fun hle => ?_⟩
  simp [if_pos hle]

/-- Witness for C6: a 100 ms duration animation advanced by 1 ms. -/
theorem advance_duration_matches_spec_witness :
    advanceNode (fun _ => 0) ⟨{ duration := some 100 }, 10, 0, false⟩ 1 {} =
        specAdvanceNode (fun _ => 0) ⟨{ duration := some 100 }, 10, 0, false⟩ 1 {} ∧
      ((100:ℚ) ≤ 0 →
        (advanceNode (fun _ => 0) ⟨{ duration := some 100 }, 10, 0, false⟩ 1 {}).done = true) :=
  advance_duration_matches_spec _ _ _ _ 100 rfl rfl rfl (by norm_num)

/-- Counterexample for C6 as frozen: with `duration` defined but
`tension = 0` the loose-spring guard fires before the duration branch, so
the channel is marked done with an unmoved position instead of computing
the claimed easing formula. -/
theorem advance_duration_spec_counter :
    advanceNode (fun _ => 0) ⟨{ tension := 0, duration := some 100 }, 10, 0, false⟩ 1 {} ≠
      specAdvanceNode (fun _ => 0) ⟨{ tension := 0, duration := some 100 }, 10, 0, false⟩ 1 {} := by
  intro h
  have := congrArg PhysNode.done h
  norm_num [advanceNode, specAdvanceNode, jsOr, Decay.truthy, min_def] at this

/-- C7 (amended): in decay mode (`decay` truthy, no duration) with
`tension > 0`, `advance(dt)` on a non-done non-immediate channel computes
exactly the spec formulas: `decayRate = 0.998` when `decay === true` else
the numeric value, `e = exp(-(1 - decayRate) * elapsedTime)`,
`position = from + (v0 / (1 - decayRate)) * (1 - e)`,
`velocity = v0 * e`, finished exactly when the position moved less than
0.1 from its previous value. -/
theorem advance_decay_matches_spec (expFn : ℚ → ℚ) (a : AdvAnim) (dt : ℚ)
    (n : PhysNode) (hdone : n.done = false) (himm : a.immediate = false)
    (hdur : a.config.duration = none) (hdec : (a.config.decay).truthy = true)
    (ht : 0 < a.config.tension) :
    advanceNode expFn a dt n = specAdvanceNode expFn a dt n := by
  unfold advanceNode specAdvanceNode
  simp only [hdone, himm, hdur, hdec, Bool.false_eq_true, if_false,
    if_neg (not_le.mpr ht), eq_self_iff_true, if_true]

/-- Witness for C7: a `decay: true` animation advanced by 1 ms. -/
theorem advance_decay_matches_spec_witness :
    advanceNode (fun _ => (1:ℚ)/2) ⟨{ velocity := 1, decay := .bool true }, 10, 0, false⟩ 1 {} =
      specAdvanceNode (fun _ => (1:ℚ)/2) ⟨{ velocity := 1, decay := .bool true }, 10, 0, false⟩ 1 {} :=
  advance_decay_matches_spec _ _ _ _ rfl rfl rfl rfl (by norm_num)

/-- Counterexample for C7 as frozen: with `decay` truthy but `tension = 0`
the loose-spring guard fires before the decay branch, so the position
never takes the claimed exponential form. -/
theorem advance_decay_spec_counter :
    advanceNode (fun _ => (1:ℚ)/2)
        ⟨{ tension := 0, velocity := 1, decay := .num (1/2) }, 10, 0, false⟩ 1 {} ≠
      specAdvanceNode (fun _ => (1:ℚ)/2)
        ⟨{ tension := 0, velocity := 1, decay := .num (1/2) }, 10, 0, false⟩ 1 {} := by
  intro h
  have := congrArg PhysNode.lastPosition h
  norm_num [advanceNode, specAdvanceNode, jsOr, Decay.truthy, Decay.rate] at this

/-- C9 (amended): for every config with `tension <= 0`, a channel of a
non-immediate animation never changes its position across any number of
`advance` calls, for every sequence of time deltas. -/
theorem advance_loose_never_moves (expFn : ℚ → ℚ) (a : AdvAnim)
    (dts : List ℚ) (n : PhysNode) (himm : a.immediate = false)
    (ht : a.config.tension ≤ 0) :
    (advanceMany expFn a dts n).lastPosition = n.lastPosition := by
  induction dts generalizing n with
  | nil => rfl
  | cons d rest ih =>
    show (advanceMany expFn a rest (advanceNode expFn a d n)).lastPosition = _
    rw [ih (advanceNode expFn a d n), advanceNode_loose expFn a d n himm ht]

/-- Witness for C9: a tension-zero spring advanced twice keeps position 0. -/
theorem advance_loose_never_moves_witness :
    (advanceMany (fun _ => 0) ⟨{ tension := 0 }, 10, 0, false⟩ [1, 2] {}).lastPosition =
      ({} : PhysNode).lastPosition :=
  advance_loose_never_moves _ _ _ _ rfl (by norm_num)

/-- Counterexample for C9 as frozen: a config with `tension <= 0` whose
animation is immediate does change the position (the immediate snap runs
before the loose-spring guard). -/
theorem advance_loose_immediate_counter :
    (⟨{ tension := 0 }, 10, 0, true⟩ : AdvAnim).config.tension ≤ 0 ∧
    (advanceMany (fun _ => 0) ⟨{ tension := 0 }, 10, 0, true⟩ [1] {}).lastPosition ≠
      ({} : PhysNode).lastPosition := by
  constructor
  · norm_num
  · norm_num [advanceMany, advanceNode]

/-- C1 (amended): an update without `cancel` that defines `to` or `from`
takes effect only if its `callId` exceeds the stored `_lastToId`;
otherwise the merge resolves it as cancelled and leaves the state
entirely unchanged, emitting nothing. -/
theorem merge_stale_to_cancelled (s : SpringState) (p : MergeProps)
    (hc : p.cancel = false) (htf : p.toP.isSome ∨ p.fromP.isSome)
    (hid : p.callId ≤ s.lastToId) :
    mergeFn s p = .ok s [] (.resolved .cancelledR) := by
  unfold mergeFn
  rw [if_neg (by simp [hc]), if_pos (by rcases htf with h | h <;> simp [h]),
    if_neg (not_lt.mpr hid)]

/-- Witness for C1: a stale `to` update against `_lastToId = 5`. -/
theorem merge_stale_to_cancelled_witness :
    mergeFn { lastToId := 5 } { callId := 3, toP := some (.num 1) } =
      .ok { lastToId := 5 } [] (.resolved .cancelledR) :=
  merge_stale_to_cancelled _ _ rfl (Or.inl rfl) (by norm_num)

/-- Counterexample for C1 as frozen: an update that defines `to` and also
carries `cancel`, with a stale `callId`, resolves as cancelled yet does
change the animation state (the cancel branch runs before the precedence
check and stops the animation, re-focusing the goal). -/
theorem merge_cancel_to_mutates_counter :
    (mergeFn
        { anim := { toV := some (.num 1), changed := true },
          node := some (.num 0), active := true, lastToId := 7 }
        { callId := 1, cancel := true, toP := some (.num 5) }).resOf =
      some (.resolved .cancelledR) ∧
    (mergeFn
        { anim := { toV := some (.num 1), changed := true },
          node := some (.num 0), active := true, lastToId := 7 }
        { callId := 1, cancel := true, toP := some (.num 5) }).stateOf.anim.toV ≠
      some (.num 1) := by
  constructor
  · norm_num [mergeFn, stopPub, privStop, focus, MergeOut.resOf]
  · norm_num [mergeFn, stopPub, privStop, focus, MergeOut.stateOf]

/-- C3 (amended): when the merge computes finished-without-starting while
an animation is active, then (a) if the animation had visibly changed and
the update is not a reset, a restart is forced instead of an abrupt stop,
and (b) if the motion has not visibly changed yet (its first frame) and
no start was otherwise decided, the animation is stopped cleanly before
any frame fires. -/
theorem merge_finished_active_restart (s : SpringState)
    (finished started reset : Bool) (hf : finished = true)
    (ha : s.active = true) :
    (s.anim.changed = true ∧ reset = false →
      mergeRestTransition s finished started reset = (s, true, [])) ∧
    (s.anim.changed = false ∧ started = false →
      mergeRestTransition s finished started reset =
        ((privStop s false).1, false, (privStop s false).2)) := by
  subst hf
  constructor
  · rintro ⟨hch, hr⟩
    unfold mergeRestTransition
    rw [if_pos ⟨rfl, ha⟩, if_pos ⟨hch, by simp [hr]⟩]
  · rintro ⟨hch, hst⟩
    subst hst
    unfold mergeRestTransition
    rw [if_pos ⟨rfl, ha⟩, if_neg (by simp [hch]), if_pos (by simp)]

/-- Witness for C3: both arms of the decision at concrete states. -/
theorem merge_finished_active_restart_witness :
    (mergeRestTransition
        { anim := { changed := true }, active := true } true false false =
      ({ anim := { changed := true }, active := true }, true, [])) ∧
    (mergeRestTransition
        { anim := { changed := false }, active := true } true false false =
      ((privStop { anim := { changed := false }, active := true } false).1,
        false,
        (privStop { anim := { changed := false }, active := true } false).2)) :=
  ⟨(merge_finished_active_restart _ _ _ _ rfl rfl).1 ⟨rfl, rfl⟩,
   (merge_finished_active_restart _ _ _ _ rfl rfl).2 ⟨rfl, rfl⟩⟩

/-- Counterexample for C3 as frozen: a reset update whose `from` equals the
current value, against an active visibly-changed animation, stops the
animation (idle event, inactive state, noop result) instead of forcing
the restart the claim promises for every active visibly-changed
animation. -/
theorem merge_reset_stop_counter :
    (mergeFn
        { anim := { toV := some (.num 5)
                    fromV := some (.num 5)
                    changed := true }
          node := some (.num 5)
          active := true
          hasAnimatedB := true }
        { callId := 1, fromP := some (.num 5) }).stateOf.active = false ∧
    (mergeFn
        { anim := { toV := some (.num 5)
                    fromV := some (.num 5)
                    changed := true }
          node := some (.num 5)
          active := true
          hasAnimatedB := true }
        { callId := 1, fromP := some (.num 5) }).resOf =
      some (.resolved (.noopR (some (.num 5)))) ∧
    SEvent.idleE ∈
      (mergeFn
        { anim := { toV := some (.num 5)
                    fromV := some (.num 5)
                    changed := true }
          node := some (.num 5)
          active := true
          hasAnimatedB := true }
        { callId := 1, fromP := some (.num 5) }).eventsOf := by
  refine ⟨?_, ?_, ?_⟩ <;>
    norm_num [mergeFn, mergeAfterPrecedence, mergeRestTransition, privStop,
      focus, setV, setHead, fireRest, mkRestEntry, resolveEv, jsOrOptBool,
      computeGoal, isAnimatable_true, getAnimatedType, toValuesOf, startAnim,
      nodePositions, stopPub, MergeOut.stateOf, MergeOut.resOf,
      MergeOut.eventsOf]

/-- C4: an update carrying `cancel` makes the merge stop the animation
(`stop(true)`) and resolve that update as cancelled; and `stop` with the
cancel flag on an active animation leaves the node value unchanged,
re-focuses the goal to the current value, delivers only the idle event
and cancelled results, and does resolve the outstanding `onRest` entries
with the cancelled result: every entry beyond the queue head (where the
source keeps every deferred update resolver, at index 1 and up) is
delivered `cancelled`, and when the animation had visibly changed the
head handler receives it too (only the head of a never-changed animation
is noop-suppressed). -/
theorem merge_cancel_resolves_cancelled :
    (∀ (s : SpringState) (p : MergeProps), p.cancel = true →
      mergeFn s p =
        .ok (stopPub s true).1 (stopPub s true).2 (.resolved .cancelledR)) ∧
    (∀ s : SpringState, s.active = true →
      (stopPub s true).1.node = s.node ∧
      (stopPub s true).1.anim.toV = s.node ∧
      (∀ e ∈ (stopPub s true).2, e = .idleE ∨ ∃ t, e = .restE t .cancelledR) ∧
      (∀ cto t, RestEntry.entry cto t ∈ s.anim.onRest.tail →
        SEvent.restE t ResultK.cancelledR ∈ (stopPub s true).2) ∧
      (s.anim.changed = true → ∀ cto t, RestEntry.entry cto t ∈ s.anim.onRest →
        SEvent.restE t ResultK.cancelledR ∈ (stopPub s true).2)) := by
  constructor
  · intro s p hc
    unfold mergeFn
    rw [if_pos (by simp [hc])]
  · intro s hs
    unfold stopPub
    have hfoc := focus_fields { s with asyncToB := false } s.node
    have hact : (focus { s with asyncToB := false } s.node).active = true := by
      rw [hfoc.2.1]; exact hs
    have hps := privStop_cancel_shape _ hact
    refine ⟨?_, ?_, hps.2.2.1, fun cto t hmem => ?_, fun hch cto t hmem => ?_⟩
    · rw [hps.1, hfoc.1]
    · rw [hps.2.1, focus_self_toV { s with asyncToB := false }]
    · refine hps.2.2.2.1 cto t ?_
      rw [hfoc.2.2.1]
      exact hmem
    · refine hps.2.2.2.2 ?_ cto t ?_
      · rw [hfoc.2.2.2.1]
        exact hch
      · rw [hfoc.2.2.1]
        exact hmem

/-- Witness for C4: a cancel update against an active animation, and the
delivery of the cancelled result to an outstanding resolver sitting
beyond the head of the `onRest` queue. -/
theorem merge_cancel_resolves_cancelled_witness :
    (mergeFn { node := some (.num 3), active := true }
        { callId := 1, cancel := true } =
      .ok (stopPub { node := some (.num 3), active := true } true).1
        (stopPub { node := some (.num 3), active := true } true).2
        (.resolved .cancelledR)) ∧
    SEvent.restE (.resolveR 1) ResultK.cancelledR ∈
      (stopPub
        { anim := { toV := some (.num 9)
                    onRest := [.entry (some (.num 9)) (.userR 0),
                      .entry (some (.num 9)) (.resolveR 1)] }
          node := some (.num 3)
          active := true } true).2 :=
  ⟨merge_cancel_resolves_cancelled.1 _ _ rfl,
   (merge_cancel_resolves_cancelled.2
      { anim := { toV := some (.num 9)
                  onRest := [.entry (some (.num 9)) (.userR 0),
                    .entry (some (.num 9)) (.resolveR 1)] }
        node := some (.num 3)
        active := true } rfl).2.2.2.1 (some (.num 9)) (.resolveR 1) (by simp)⟩

/-- C5 (amended): updating a frozen value raises the frozen error, and a
non-immediate goal whose node type differs from the current node raises
the type-mismatch error; both are synchronous errors to the caller, but
the mutations applied before each check remain: the frozen error is
thrown with exactly the state `_prepareNode` already produced (so its
node preparation persists), and the type-mismatch error leaves the
already-focused new `to` and the already-merged config (for any `config`
prop the update carries) in the state. -/
theorem update_error_paths_raise :
    (∀ (s : SpringState) (p : MergeProps), s.frozen = true →
      updateFn s p =
        .threw (prepareNode s p).1
          ((if (resolveEv p.onProps s.defaults.onProps).isSome
              then [SEvent.onPropsE] else []) ++ (prepareNode s p).2)
          frozenMsg) ∧
    (∀ (s : SpringState) (p : MergeProps) (q x : ℚ) (st : String),
      p.cancel = false → p.toP = some (.str st) → p.fromP = none →
      p.defaultP = false → p.reverse = false →
      p.immediateP = none → s.defaults = {} →
      s.anim.toV = some (.num q) → s.node = some (.num x) →
      s.lastToId < p.callId →
      (mergeFn s p).errOf = some mismatchMsg ∧
      (mergeFn s p).stateOf.anim.toV = some (.str st) ∧
      (mergeFn s p).stateOf.anim.config = applyPatch s.anim.config p.config) := by
  constructor
  · intro s p hs
    unfold updateFn
    rw [if_pos (by rw [prepareNode_frozen]; exact hs)]
  · intro s p q x st hc hto hfrom hdef hrev himm hdefs htv hnode hlt
    exact merge_mismatch_shape s p q x st hc hto hfrom hdef hrev himm
      hdefs htv hnode hlt

/-- Witness for C5: a frozen update whose node preparation already changed
the node value (the change persists in the thrown state), and a
numeric-to-string transition carrying a `config` prop (the merged config
persists in the thrown state). -/
theorem update_error_paths_raise_witness :
    (updateFn { node := some (.num 0), frozen := true } { fromP := some (.num 1) } =
      .threw { node := some (.num 1), frozen := true } [.onChangeE (.num 1)]
        frozenMsg) ∧
    ((mergeFn
        { anim := { toV := some (.num 2) }, node := some (.num 3), lastToId := 0 }
        { callId := 1
          toP := some (.str "10px")
          config := some { tension := some 300 } }).errOf = some mismatchMsg ∧
     (mergeFn
        { anim := { toV := some (.num 2) }, node := some (.num 3), lastToId := 0 }
        { callId := 1
          toP := some (.str "10px")
          config := some { tension := some 300 } }).stateOf.anim.toV =
      some (.str "10px") ∧
     (mergeFn
        { anim := { toV := some (.num 2) }, node := some (.num 3), lastToId := 0 }
        { callId := 1
          toP := some (.str "10px")
          config := some { tension := some 300 } }).stateOf.anim.config =
      applyPatch
        ({ anim := { toV := some (.num 2) }, node := some (.num 3), lastToId := 0 } :
          SpringState).anim.config
        ({ callId := 1
           toP := some (.str "10px")
           config := some { tension := some 300 } } : MergeProps).config) := by
  constructor
  · rw [update_error_paths_raise.1 _ _ rfl]
    norm_num [prepareNode, setV, resolveEv]
  · exact update_error_paths_raise.2 _ _ 2 3 "10px" rfl rfl rfl rfl rfl rfl
      rfl rfl rfl (by norm_num)

/-- Counterexample for C5 as frozen: after the type-mismatch error is
raised, the animation state is not rolled back, so a partial mutation
remains (the goal is already re-focused to the new `to` value). -/
theorem merge_mismatch_mutates_counter :
    (mergeFn
        { anim := { toV := some (.num 2) }, node := some (.num 3), lastToId := 0 }
        { callId := 1, toP := some (.str "5px") }).errOf = some mismatchMsg ∧
    (mergeFn
        { anim := { toV := some (.num 2) }, node := some (.num 3), lastToId := 0 }
        { callId := 1, toP := some (.str "5px") }).stateOf.anim.toV ≠
      some (.num 2) := by
  have h := merge_mismatch_shape
    { anim := { toV := some (.num 2) }, node := some (.num 3), lastToId := 0 }
    { callId := 1, toP := some (.str "5px") } 2 3 "5px" rfl rfl rfl rfl rfl
    rfl rfl rfl rfl (by norm_num)
  exact ⟨h.1, by rw [h.2.1]; simp⟩

/-- C8: submitting again, after the first animation settled, an update with
the same `to` (the current goal) and a config that merges to the current
config resolves as a noop carrying the current value, changes nothing but
the recorded `_lastToId`, starts no animation and fires no callback (in
particular `onStart` is not re-fired). -/
theorem merge_identical_noop (s : SpringState) (p : MergeProps) (t v : SpringVal)
    (hc : p.cancel = false) (hto : p.toP = some t) (hfrom : p.fromP = none)
    (hreset : p.reset = none) (hdef : p.defaultP = false)
    (hrev : p.reverse = false) (honrest : p.onRest = none)
    (himm : p.immediateP = none) (hode : p.onDelayEnd = none)
    (hdefs : s.defaults = {}) (hnode : s.node = some v)
    (htv : s.anim.toV = some t) (hanimimm : s.anim.immediate = false)
    (hact : s.active = false) (hlt : s.lastToId < p.callId)
    (hcfg : applyPatch s.anim.config p.config = s.anim.config) :
    mergeFn s p =
      .ok { s with lastToId := p.callId } [] (.resolved (.noopR (some v))) := by
  obtain ⟨anim, node, active, pausedB, hasAnimatedB, asyncToB, lastCallId,
    lastToId, defaults, frozen⟩ := s
  obtain ⟨toV, fromV, config, immB, changed, onRest, toValues, fromValues,
    oS, oC, oP, oR⟩ := anim
  simp only at hdefs hnode htv hanimimm hact hlt hcfg
  subst hdefs hnode htv hanimimm hact
  unfold mergeFn
  rw [if_neg (by simp [hc]), if_pos (by simp [hto]), if_pos hlt]
  cases hpc : p.config with
  | none =>
    simp only [hpc] at hcfg
    simp only [mergeAfterPrecedence, hto, hfrom, hreset, hdef, hrev, honrest,
      himm, hode, hpc, resolveEv, jsOrOptBool, mkRestEntry,
      mergeRestTransition, computeGoal, isAnimatable_true]
    norm_num [isAnimatable_true, computeGoal]
  | some pc =>
    simp only [hpc] at hcfg
    simp only [mergeAfterPrecedence, hto, hfrom, hreset, hdef, hrev, honrest,
      himm, hode, hpc, resolveEv, jsOrOptBool, mkRestEntry,
      mergeRestTransition, mergeConfig, applyPatch_none, computeGoal,
      isAnimatable_true]
    norm_num [applyPatch_none, hcfg, isAnimatable_true, computeGoal]

/-- Witness for C8: re-submitting `to: 7` against a settled state at 7. -/
theorem merge_identical_noop_witness :
    mergeFn
        { anim := { toV := some (.num 7) }, node := some (.num 7), lastToId := 1 }
        { callId := 2, toP := some (.num 7) } =
      .ok { anim := { toV := some (.num 7) }, node := some (.num 7), lastToId := 2 }
        [] (.resolved (.noopR (some (.num 7)))) :=
  merge_identical_noop _ _ (.num 7) (.num 7) rfl rfl rfl rfl rfl rfl rfl rfl
    rfl rfl rfl rfl rfl rfl (by norm_num) rfl

/-- C10: the `idle` accessor is true whenever the value is paused (even
with an active animation or async `to` in flight), and it is false exactly
when the value is animating or has an active async `to` and is not
paused. -/
theorem idle_paused_accessor (s : SpringState) :
    (s.pausedB = true → idleAcc s = true) ∧
    (idleAcc s = false ↔ (s.active = true ∨ s.asyncToB = true) ∧ s.pausedB = false) := by
  cases hp : s.pausedB <;> cases ha : s.active <;> cases hb : s.asyncToB <;>
    simp [idleAcc, hp, ha, hb]

/-- Witness for C10: a paused, actively animating value reads as idle. -/
theorem idle_paused_accessor_witness :
    idleAcc { active := true, pausedB := true } = true :=
  (idle_paused_accessor { active := true, pausedB := true }).1 rfl

end SpringV
